import Mathlib

/-!
Verification of the chunking + ordered-merge pipeline of the
TTS-PYTHON-Local repository (src/tts-gen).

Python strings are modelled as `List Char` (`Str`), Python lists as Lean
lists, the filesystem of the output directory as a list of WAV files
(name plus the audio data librosa would load from the file's bytes).
Each definition mirrors one Python function of the source; the source
file and lines are named in the doc comments.
-/

/-- A Python string, modelled as its list of characters. -/
abbrev Str := List Char

/-- Python `str.strip()`: remove leading and trailing whitespace. -/
def pyStrip (s : Str) : Str :=
  ((s.dropWhile Char.isWhitespace).reverse.dropWhile Char.isWhitespace).reverse

/-- Python `text.split('. ')` (launch_tts.py line 9): split on every
non-overlapping occurrence of the two-character separator, scanning left
to right; the separator characters are dropped. -/
def splitDot : Str → List Str
  | [] => [[]]
  | '.' :: ' ' :: rest => [] :: splitDot rest
  | c :: rest =>
    let r := splitDot rest
    (c :: r.headD []) :: r.tail

/-- One iteration of the packing loop of `split_text_into_chunks`
(launch_tts.py lines 13-18). The accumulator is the pair
(`chunks`, `current_chunk`). -/
def chunkStep (max_length : Nat) (acc : List Str × Str) (sentence : Str) :
    List Str × Str :=
  if acc.2.length + sentence.length + 1 ≤ max_length then
    (acc.1, acc.2 ++ sentence ++ ['.', ' '])
  else
    (acc.1 ++ [pyStrip acc.2], sentence ++ ['.', ' '])

/-- `split_text_into_chunks(text, max_length)` (launch_tts.py lines 8-23). -/
def split_text_into_chunks (text : Str) (max_length : Nat) : List Str :=
  let sentences := splitDot text
  let r := sentences.foldl (chunkStep max_length) ([], [])
  if r.2 = [] then r.1 else r.1 ++ [pyStrip r.2]

/-- `text.split('. ')` always yields at least one piece, exactly as in
Python. -/
theorem splitDot_ne_nil (s : Str) : splitDot s ≠ [] := by
  rw [splitDot.eq_def]
  split <;> simp

/-- Both branches of the packing step leave a `current_chunk` that ends in
the re-appended terminator `'. '`, so it is never the empty string. -/
theorem chunkStep_snd_ne_nil (max_length : Nat) (acc : List Str × Str)
    (sentence : Str) : (chunkStep max_length acc sentence).2 ≠ [] := by
  rw [chunkStep]
  split <;> simp

/-- The packing step only ever appends to the list of finished chunks. -/
theorem chunkStep_fst_append (max_length : Nat) (acc : List Str × Str)
    (sentence : Str) :
    ∃ tl, (chunkStep max_length acc sentence).1 = acc.1 ++ tl := by
  rw [chunkStep]
  split
  · exact ⟨[], by simp⟩
  · exact ⟨[pyStrip acc.2], rfl⟩

/-- After the packing loop has consumed at least one sentence, the
`current_chunk` register is non-empty. -/
theorem chunkFold_snd_ne_nil (max_length : Nat) :
    ∀ (l : List Str) (acc : List Str × Str), acc.2 ≠ [] ∨ l ≠ [] →
      (l.foldl (chunkStep max_length) acc).2 ≠ []
  | [], _, h => by
      rcases h with h | h
      · simpa using h
      · simp at h
  | s :: rest, acc, _ => by
      rw [List.foldl_cons]
      exact chunkFold_snd_ne_nil max_length rest _
        (Or.inl (chunkStep_snd_ne_nil max_length acc s))

/-- The packing loop only ever appends to the list of finished chunks:
the chunks present at the start stay a prefix of the result. -/
theorem chunkFold_fst_prefix (max_length : Nat) :
    ∀ (l : List Str) (acc : List Str × Str),
      ∃ tl, (l.foldl (chunkStep max_length) acc).1 = acc.1 ++ tl
  | [], acc => ⟨[], by simp⟩
  | s :: rest, acc => by
      rw [List.foldl_cons]
      obtain ⟨t1, ht1⟩ := chunkStep_fst_append max_length acc s
      obtain ⟨t2, ht2⟩ :=
        chunkFold_fst_prefix max_length rest (chunkStep max_length acc s)
      exact ⟨t1 ++ t2, by rw [ht2, ht1, List.append_assoc]⟩

/-- Closing a chunk that was built as `w ++ '. '` strips exactly the one
trailing space (and any leading whitespace): the closed chunk is
`w.dropWhile isWhitespace ++ "."`. -/
theorem pyStrip_append_term (x : Str) :
    pyStrip (x ++ ['.', ' ']) = x.dropWhile Char.isWhitespace ++ ['.'] := by
  unfold pyStrip
  rw [List.dropWhile_append]
  by_cases h : (x.dropWhile Char.isWhitespace).isEmpty
  · rw [if_pos h]
    have hx : x.dropWhile Char.isWhitespace = [] := by
      simpa [List.isEmpty_iff] using h
    rw [hx]
    decide
  · rw [if_neg h]
    rw [List.reverse_append]
    have hsp : Char.isWhitespace ' ' = true := by decide
    have hdot : Char.isWhitespace '.' = false := by decide
    simp [List.dropWhile_cons, hsp, hdot]

/-- The closed form of a chunk is never longer than the raw chunk string
minus its trailing space. -/
theorem pyStrip_append_term_length (x : Str) :
    (pyStrip (x ++ ['.', ' '])).length ≤ x.length + 1 := by
  rw [pyStrip_append_term, List.length_append]
  have := (List.dropWhile_suffix (l := x) Char.isWhitespace).sublist.length_le
  simpa using Nat.add_le_add_right this 1

/-- A finished chunk is within the length bound, or it is a single atomic
unit (one element of the sentence split) that, together with its
re-appended terminator, exceeds the bound. -/
def ChunkOk (sents : List Str) (max_length : Nat) (c : Str) : Prop :=
  c.length ≤ max_length ∨
    ∃ s ∈ sents, max_length < s.length + 1 ∧ c = pyStrip (s ++ ['.', ' '])

/-- Invariant of the `current_chunk` register: it is empty, or closing it
now would satisfy the bound, or it is a single oversized atomic unit with
its terminator. -/
def CurOk (sents : List Str) (max_length : Nat) (cur : Str) : Prop :=
  cur = [] ∨ (pyStrip cur).length ≤ max_length ∨
    ∃ s ∈ sents, max_length < s.length + 1 ∧ cur = s ++ ['.', ' ']

/-- Closing the `current_chunk` register always yields an admissible
chunk. -/
theorem stripCur_ok (sents : List Str) (max_length : Nat) (cur : Str)
    (h : CurOk sents max_length cur) :
    ChunkOk sents max_length (pyStrip cur) := by
  rcases h with h | h | ⟨s, hs, hbig, rfl⟩
  · subst h
    left
    simp [pyStrip]
  · exact Or.inl h
  · exact Or.inr ⟨s, hs, hbig, rfl⟩

/-- Starting a fresh chunk from one atomic unit keeps the invariant. -/
theorem newCur_ok (sents : List Str) (max_length : Nat) (s : Str)
    (hs : s ∈ sents) : CurOk sents max_length (s ++ ['.', ' ']) := by
  by_cases h : max_length < s.length + 1
  · exact Or.inr (Or.inr ⟨s, hs, h, rfl⟩)
  · refine Or.inr (Or.inl ?_)
    have := pyStrip_append_term_length s
    omega

/-- Packing one more atomic unit into the current chunk keeps the
invariant: the packing guard bounds the closed length. -/
theorem extendCur_ok (sents : List Str) (max_length : Nat) (cur s : Str)
    (h : cur.length + s.length + 1 ≤ max_length) :
    CurOk sents max_length (cur ++ s ++ ['.', ' ']) := by
  refine Or.inr (Or.inl ?_)
  have := pyStrip_append_term_length (cur ++ s)
  rw [List.length_append] at this
  omega

/-- Invariant of the whole packing loop of `split_text_into_chunks`. -/
theorem chunkFold_invariant (sents : List Str) (max_length : Nat) :
    ∀ (l : List Str) (acc : List Str × Str),
      (∀ s ∈ l, s ∈ sents) →
      (∀ c ∈ acc.1, ChunkOk sents max_length c) →
      CurOk sents max_length acc.2 →
      (∀ c ∈ (l.foldl (chunkStep max_length) acc).1,
          ChunkOk sents max_length c) ∧
        CurOk sents max_length (l.foldl (chunkStep max_length) acc).2
  | [], acc, _, hchunks, hcur => ⟨hchunks, hcur⟩
  | s :: rest, acc, hl, hchunks, hcur => by
      rw [List.foldl_cons]
      have hmem : s ∈ sents := hl s (by simp)
      have hrest : ∀ t ∈ rest, t ∈ sents := fun t ht => hl t (by simp [ht])
      rw [chunkStep]
      split
      · exact chunkFold_invariant sents max_length rest _ hrest hchunks
          (extendCur_ok sents max_length acc.2 s (by assumption))
      · refine chunkFold_invariant sents max_length rest _ hrest ?_
          (newCur_ok sents max_length s hmem)
        intro c hc
        rcases List.mem_append.mp hc with hc | hc
        · exact hchunks c hc
        · rcases List.mem_singleton.mp hc with rfl
          exact stripCur_ok sents max_length acc.2 hcur

/-- C5 counterexample: chunking the text "A. B. C." with max_length 5 does
NOT yield ["A.", "B.", "C."]; the code packs "A" and "B" together (the
closed chunk "A. B." has length 5, within the bound) and turns the final
sentence "C." into "C..". -/
theorem C5_counterexample :
    split_text_into_chunks ("A. B. C.".toList) 5 =
        ["A. B.".toList, "C..".toList] ∧
      ["A. B.".toList, "C..".toList] ≠
        ["A.".toList, "B.".toList, "C.".toList] :=
  ⟨by rfl, by decide⟩

/-- C5 amended: chunking the text "A. B. C." with max_length 5 yields
exactly the two chunks ["A. B.", "C.."], in that order. -/
theorem C5_amended_scenario :
    split_text_into_chunks ("A. B. C.".toList) 5 =
      ["A. B.".toList, "C..".toList] := by
  rfl

/-- C6 counterexample: on the empty input the chunker returns the single
chunk ".", not the empty sequence: the split of "" is [""], the empty
sentence is packed as "" + ". ", and the final flush appends its stripped
form ".". -/
theorem C6_counterexample :
    split_text_into_chunks ([] : Str) 5 = [['.']] ∧
      ([['.']] : List Str) ≠ [] :=
  ⟨by rfl, by decide⟩

/-- C6 amended: for every input text (including empty and whitespace-only
inputs) and every max_length, the chunker returns at least one chunk; it
never returns an empty sequence. -/
theorem C6_amended_never_empty (text : Str) (max_length : Nat) :
    1 ≤ (split_text_into_chunks text max_length).length := by
  unfold split_text_into_chunks
  have h := chunkFold_snd_ne_nil max_length (splitDot text) ([], [])
    (Or.inr (splitDot_ne_nil text))
  rw [if_neg h]
  simp

/-- C7 counterexample: with text "AB" and max_length 2 the chunker emits
the chunk "AB." of length 3 > 2, although the only atomic unit "AB" has
length 2, which does not exceed max_length: the exception of the claim
(a single unit whose own length exceeds the bound) does not cover this
oversized chunk. -/
theorem C7_counterexample :
    split_text_into_chunks ("AB".toList) 2 = [[], "AB.".toList] ∧
      splitDot ("AB".toList) = ["AB".toList] ∧
      2 < ("AB.".toList).length ∧ ("AB".toList).length ≤ 2 :=
  ⟨by rfl, by rfl, by decide, by decide⟩

/-- C7 amended: every chunk either has length at most max_length, or it
is exactly one atomic unit s of the sentence split, closed with its
re-appended terminator (so no sentence is ever split), where packing s
into an empty chunk already breaks the guard: max_length < |s| + 1. -/
theorem C7_amended_length_bound (text : Str) (max_length : Nat) (c : Str)
    (hc : c ∈ split_text_into_chunks text max_length) :
    c.length ≤ max_length ∨
      ∃ s ∈ splitDot text, max_length < s.length + 1 ∧
        c = pyStrip (s ++ ['.', ' ']) := by
  have hinv := chunkFold_invariant (splitDot text) max_length
    (splitDot text) ([], []) (fun s hs => hs) (by simp)
    (Or.inl rfl)
  simp only [split_text_into_chunks] at hc
  split at hc
  · exact hinv.1 c hc
  · rcases List.mem_append.mp hc with hc | hc
    · exact hinv.1 c hc
    · rcases List.mem_singleton.mp hc with rfl
      exact stripCur_ok (splitDot text) max_length _ hinv.2

/-- C7 amended, witness: the chunk "Hello." produced for text "Hello" at
max_length 3 is admissible only through the oversized-unit exception. -/
theorem C7_amended_length_bound_witness :
    ("Hello.".toList).length ≤ 3 ∨
      ∃ s ∈ splitDot ("Hello".toList), 3 < s.length + 1 ∧
        "Hello.".toList = pyStrip (s ++ ['.', ' ']) :=
  C7_amended_length_bound ("Hello".toList) 3 ("Hello.".toList) (by decide)

/-- C10: whenever the first atomic unit of the input already breaks the
packing guard against the empty current chunk (its length is at least
max_length), the chunker appends the empty-string chunk before the
oversized unit's chunk, so the first returned chunk is the empty string.
The current chunk is empty only before the first sentence is processed,
so this is exactly the "unit does not fit while the current chunk is
empty" case. -/
theorem C10_empty_first_chunk (text : Str) (max_length : Nat) (s : Str)
    (rest : List Str) (hsplit : splitDot text = s :: rest)
    (hlen : max_length ≤ s.length) :
    (split_text_into_chunks text max_length).head? = some ([] : Str) := by
  simp only [split_text_into_chunks]
  rw [hsplit, List.foldl_cons]
  have hguard : ¬ (([] : Str).length + s.length + 1 ≤ max_length) := by
    simp
    omega
  rw [show chunkStep max_length ([], []) s = ([[]], s ++ ['.', ' ']) from by
    rw [chunkStep]
    rw [if_neg hguard]
    rfl]
  obtain ⟨tl, htl⟩ :=
    chunkFold_fst_prefix max_length rest ([[]], s ++ ['.', ' '])
  split
  · rw [htl]
    rfl
  · rw [htl]
    rfl

/-- C10 witness: for text "AB" and max_length 2 (the single sentence "AB"
has length 2 ≥ 2) the first chunk is the empty string. -/
theorem C10_empty_first_chunk_witness :
    (split_text_into_chunks ("AB".toList) 2).head? = some ([] : Str) :=
  C10_empty_first_chunk ("AB".toList) 2 ("AB".toList) [] (by rfl) (by decide)

/-- Python `str.split(sep)` for a single-character separator, as used in
glue.py line 22 (`x.split('_')` and `.split('.')`). -/
def splitOnChar (sep : Char) : Str → List Str
  | [] => [[]]
  | c :: rest =>
    if c = sep then [] :: splitOnChar sep rest
    else
      let r := splitOnChar sep rest
      (c :: r.headD []) :: r.tail

/-- Decimal value of a digit string. -/
def digitsVal (l : Str) : Nat := l.foldl (fun a c => a * 10 + (c.toNat - 48)) 0

/-- A non-empty all-digit string parses; anything else raises ValueError. -/
def pyIntDigits (l : Str) : Option Nat :=
  if l ≠ [] ∧ l.all Char.isDigit then some (digitsVal l) else none

/-- Python `int(string)`: surrounding whitespace is ignored, an optional
sign precedes the digits, and a string without a digit sequence raises
ValueError (modelled as none). Digit-grouping underscores cannot occur
here, since the argument is a piece of a '_'-split. -/
def pyInt (s : Str) : Option Int :=
  match pyStrip s with
  | '-' :: rest => (pyIntDigits rest).map (fun n => -(n : Int))
  | '+' :: rest => (pyIntDigits rest).map (fun n => (n : Int))
  | t => (pyIntDigits t).map (fun n => (n : Int))

/-- One WAV file of the output directory: its path (name) together with
the audio that librosa.load would read from its bytes — the sample rate
and the sample array (glue.py lines 7-9). -/
structure WavFile where
  name : Str
  rate : Nat
  samples : List Int
  deriving DecidableEq

/-- The sort key `int(x.split('_')[-1].split('.')[0])` of glue.py
line 22. -/
def sort_key (file_name : Str) : Option Int :=
  pyInt ((splitOnChar '.' ((splitOnChar '_' file_name).getLastD [])).headD [])

/-- glue.py lines 16-18: keep every file whose name ends in ".wav" and
contains an underscore. -/
def wavFilter (dir : List WavFile) : List WavFile :=
  dir.filter (fun f => (".wav".toList).isSuffixOf f.name && f.name.contains '_')

/-- Stable insertion of an element into a sorted list (an element goes in
front of the first existing element it compares le to). -/
def insertBy {α : Type} (le : α → α → Bool) (x : α) : List α → List α
  | [] => [x]
  | y :: rest => if le x y then x :: y :: rest else y :: insertBy le x rest

/-- Stable ascending sort (insertion sort); Python's `list.sort` is a
stable ascending sort, so it computes the same list. -/
def sortBy {α : Type} (le : α → α → Bool) : List α → List α
  | [] => []
  | x :: rest => insertBy le x (sortBy le rest)

/-- glue.py lines 13-26: collect the *_*.wav files of the directory and
sort them by the numeric value of the trailing index in the filename.
CPython's `list.sort(key=...)` computes every key before comparing, so a
single non-numeric index raises ValueError, the `except` branch returns,
and no sorted list is produced (none). -/
def sorted_wav_files (dir : List WavFile) : Option (List WavFile) :=
  let wav_files := wavFilter dir
  if wav_files.all (fun f => (sort_key f.name).isSome) then
    some (sortBy
      (fun a b => (sort_key a.name).getD 0 ≤ (sort_key b.name).getD 0)
      wav_files)
  else none

/-- Result of one run of merge_wav_files, as observable by the caller:
the early returns of glue.py lines 26 and 45, or a written merge. -/
inductive MergeOutcome where
  | sortFailure : MergeOutcome
  | noValidAudio : MergeOutcome
  | success (sample_rate : Nat) (merged : List Int) : MergeOutcome
  deriving DecidableEq

/-- The fragment-loading loop of glue.py lines 29-41: the first file's
rate becomes the reference; a later file with a different rate is skipped
with a warning, and the loop continues. -/
def collectAudio :
    List WavFile → Option Nat → List (List Int) → Option Nat × List (List Int)
  | [], sample_rate, audio_data => (sample_rate, audio_data)
  | f :: rest, none, audio_data =>
      collectAudio rest (some f.rate) (audio_data ++ [f.samples])
  | f :: rest, some sample_rate, audio_data =>
      if f.rate = sample_rate then
        collectAudio rest (some sample_rate) (audio_data ++ [f.samples])
      else
        collectAudio rest (some sample_rate) audio_data

/-- merge_wav_files (glue.py lines 12-52). Every fragment load is
modelled as succeeding. The `getD 0` default is unreachable: the rate is
set whenever audio_data is non-empty. -/
def merge_wav_files (dir : List WavFile) : MergeOutcome :=
  match sorted_wav_files dir with
  | none => MergeOutcome.sortFailure
  | some wav_files =>
    let r := collectAudio wav_files none []
    if r.2.isEmpty then MergeOutcome.noValidAudio
    else MergeOutcome.success (r.1.getD 0) r.2.flatten

/-- glue.py's module-level output path (line 56): the constant
'output.wav'; sys.argv is never read anywhere in glue.py. -/
def glue_output_file : Str := "output.wav".toList

/-- glue.py run as a script with the given command-line arguments
(launch_tts.py line 115 passes the base name and the output directory):
the arguments are ignored — the script merges every *_*.wav file of its
hardcoded directory and writes to the constant path 'output.wav'. -/
def glue_script (argv : List Str) (dir : List WavFile) : MergeOutcome × Str :=
  (merge_wav_files dir, glue_output_file)

/-- True when a file with the given path exists (os.path.exists). -/
def fsHas (fs : List WavFile) (p : Str) : Bool := fs.any (fun f => f.name == p)

/-- Opening a path in 'wb' mode and writing replaces any file there. -/
def fsWrite (fs : List WavFile) (p : Str) (rate : Nat) (samples : List Int) :
    List WavFile :=
  fs.filter (fun f => !(f.name == p)) ++ [⟨p, rate, samples⟩]

/-- os.remove, under the per-file try/except of launch_tts.py
lines 95-99: removing a missing file is caught and ignored. -/
def fsRemove (fs : List WavFile) (p : Str) : List WavFile :=
  fs.filter (fun f => !(f.name == p))

/-- run_glue_script (launch_tts.py lines 105-123) runs glue.py as a
subprocess with check=True and returns True unless the process exits
nonzero. glue.py exits 0 on every merge outcome — merge_wav_files
returns None on each of its paths and the module never calls sys.exit —
so the reported Bool is True even on sortFailure and noValidAudio (only
an uncaught exception, e.g. an unreadable fragment, would exit nonzero;
fragment loads are modelled as succeeding). The filesystem effect is
glue.py's: output.wav is written when the merge succeeds. -/
def run_glue_script (fs : List WavFile) : Bool × List WavFile :=
  match merge_wav_files fs with
  | MergeOutcome.success r s => (true, fsWrite fs glue_output_file r s)
  | _ => (true, fs)

/-- The merge-and-cleanup tail of the per-file loop of process_text_files
(launch_tts.py lines 85-101): run glue if any chunk files were collected,
then delete every collected chunk file iff run_glue_script reported
success. -/
def merge_and_cleanup (fs : List WavFile) (chunk_files : List Str) :
    List WavFile :=
  if chunk_files.isEmpty then fs
  else
    let r := run_glue_script fs
    if r.1 then chunk_files.foldl fsRemove r.2 else r.2

/-- Fragment i of the C8 scenario: base_i.wav, whose single sample is the
index i, so the merged stream spells out the concatenation order. -/
def frag12 (i : Nat) : WavFile :=
  ⟨"base_".toList ++ (Nat.repr i).toList ++ ".wav".toList, 8000, [(i : Int)]⟩

/-- The 12 fragments as os.listdir could present them: in lexicographic
name order (1, 10, 11, 12, 2, ..., 9). -/
def dir12 : List WavFile :=
  [1, 10, 11, 12, 2, 3, 4, 5, 6, 7, 8, 9].map frag12

/-- The same fragments in numeric index order. -/
def dir12numeric : List WavFile :=
  [1, 2, 3, 4, 5, 6, 7, 8, 9, 10, 11, 12].map frag12

/-- C8: given fragments base_1.wav through base_12.wav listed in
lexicographic order, the Merger sorts them by the numeric value of the
trailing index and concatenates in the order 1, 2, ..., 12 — the merged
sample stream is [1, 2, ..., 12], not the lexicographic
[1, 10, 11, 12, 2, ...] — and the numeric order differs from the
lexicographic listing order. -/
theorem C8_numeric_order :
    sorted_wav_files dir12 = some dir12numeric ∧
      merge_wav_files dir12 =
        MergeOutcome.success 8000 [1, 2, 3, 4, 5, 6, 7, 8, 9, 10, 11, 12] ∧
      dir12numeric ≠ dir12 :=
  ⟨by rfl, by rfl, by decide⟩

/-- Once the reference rate is fixed, the loading loop appends exactly
the samples of the fragments whose rate matches it, in list order. -/
theorem collectAudio_some (sr : Nat) :
    ∀ (l : List WavFile) (acc : List (List Int)),
      collectAudio l (some sr) acc =
        (some sr,
          acc ++ (l.filter (fun g => g.rate == sr)).map (fun g => g.samples))
  | [], acc => by simp [collectAudio]
  | f :: rest, acc => by
      by_cases h : f.rate = sr
      · rw [show collectAudio (f :: rest) (some sr) acc =
            collectAudio rest (some sr) (acc ++ [f.samples]) from by
          simp [collectAudio, h]]
        rw [collectAudio_some sr rest (acc ++ [f.samples])]
        simp [List.filter_cons, h]
      · rw [show collectAudio (f :: rest) (some sr) acc =
            collectAudio rest (some sr) acc from by simp [collectAudio, h]]
        rw [collectAudio_some sr rest acc]
        simp [List.filter_cons, h]

/-- C9: the sample rate of the first (successfully loaded) fragment of
the sorted list is the reference rate; every later fragment with a
different rate is excluded and the merge continues, so the merged output
carries the first fragment's rate and concatenates exactly the samples
of the rate-matching fragments, in order. -/
theorem C9_rate_mismatch_exclusion (dir : List WavFile) (f : WavFile)
    (rest : List WavFile)
    (hsorted : sorted_wav_files dir = some (f :: rest)) :
    merge_wav_files dir =
      MergeOutcome.success f.rate
        ((((f :: rest).filter (fun g => g.rate == f.rate)).map
            (fun g => g.samples)).flatten) := by
  unfold merge_wav_files
  rw [hsorted]
  dsimp only
  have h1 : collectAudio (f :: rest) none [] =
      collectAudio rest (some f.rate) [f.samples] := by
    simp [collectAudio]
  rw [h1, collectAudio_some]
  simp [List.filter_cons]

/-- The three fragments of the C9 scenario, with rates
[16000, 16000, 44100] and sample counts 3, 2 and 5. -/
def c9f1 : WavFile := ⟨"u_1.wav".toList, 16000, [0, 1, 2]⟩

/-- Second C9 fragment: matching rate. -/
def c9f2 : WavFile := ⟨"u_2.wav".toList, 16000, [3, 4]⟩

/-- Third C9 fragment: mismatching rate 44100, to be excluded. -/
def c9f3 : WavFile := ⟨"u_3.wav".toList, 44100, [5, 6, 7, 8, 9]⟩

/-- The C9 directory in listing order. -/
def c9dir : List WavFile := [c9f1, c9f2, c9f3]

/-- C9 witness: for rates [16000, 16000, 44100] the merged output has
rate 16000 and contains exactly the first two fragments' samples — its
total sample count is 3 + 2 = 5, the 44100 fragment is excluded. -/
theorem C9_rate_mismatch_exclusion_witness :
    merge_wav_files c9dir = MergeOutcome.success 16000 [0, 1, 2, 3, 4] := by
  have h := C9_rate_mismatch_exclusion c9dir c9f1 [c9f2, c9f3] (by rfl)
  exact h.trans (by rfl)

/-- The one real fragment of the C1 TextUnit. -/
def c1frag : WavFile := ⟨"u_1.wav".toList, 16000, [1]⟩

/-- A stray WAV file whose name has no numeric index after the last
underscore: its sort key raises, so the merge reports a sort failure. -/
def c1stray : WavFile := ⟨"junk_a.wav".toList, 16000, [2]⟩

/-- The C1 output directory. -/
def c1fs : List WavFile := [c1frag, c1stray]

/-- C1 (code bug): with the stray file junk_a.wav (non-numeric index) in
the output directory the merge fails with sortFailure, yet the
orchestrator still deletes the TextUnit's fragment u_1.wav — glue.py
exits 0 even when it reports a sort failure, run_glue_script only tests
the exit code, so merge_successful is True and the cleanup removes the
fragment. The claim (fragments are retained on merge failure) matches
the code's own comment "Delete chunk files only if merge was successful"
but not its behaviour. -/
theorem C1_sortFailure_still_deletes :
    merge_wav_files c1fs = MergeOutcome.sortFailure ∧
      merge_and_cleanup c1fs ["u_1.wav".toList] = [c1stray] :=
  ⟨by rfl, by rfl⟩

/-- Fragment of TextUnit a in the C2 scenario. -/
def c2fragA : WavFile := ⟨"a_1.wav".toList, 16000, [10]⟩

/-- Fragment of the unrelated TextUnit b, in the same directory. -/
def c2fragB : WavFile := ⟨"b_1.wav".toList, 16000, [20]⟩

/-- The shared output directory of the C2 scenario. -/
def c2fs : List WavFile := [c2fragA, c2fragB]

/-- C2 (code bug): invoked for base name "a", glue.py ignores its
arguments, merges every *_*.wav file of the directory — the merged
stream [10, 20] contains TextUnit b's samples [20] — and writes to the
constant path "output.wav" rather than an "a"-derived one; invoking it
for base "b" produces the identical result. -/
theorem C2_merges_other_units :
    glue_script ["a".toList, "./audio".toList] c2fs =
        (MergeOutcome.success 16000 [10, 20], "output.wav".toList) ∧
      glue_script ["b".toList, "./audio".toList] c2fs =
        (MergeOutcome.success 16000 [10, 20], "output.wav".toList) :=
  ⟨by rfl, by rfl⟩

/-- Response of one POST to tts_url/tts_to_audio/: the HTTP status and
the body bytes, described by the audio librosa would decode from them. -/
structure TtsResponse where
  status : Nat
  rate : Nat
  samples : List Int
  deriving DecidableEq

/-- One TTS call either returns a response (of any status) or raises a
requests exception (connection or I/O error), modelled as Except.error. -/
abbrev TtsOutcome := Except Unit TtsResponse

/-- Name of chunk fragment i (launch_tts.py line 60): base_name_i.wav. -/
def chunk_path (base : Str) (i : Nat) : Str :=
  base ++ '_' :: (Nat.repr i).toList ++ ".wav".toList

/-- The final output name (launch_tts.py line 42):
base_name_timestamp.wav, with the timestamp taken at run start. -/
def final_path (base timestamp : Str) : Str :=
  base ++ '_' :: timestamp ++ ".wav".toList

/-- The per-chunk loop of process_text_files (launch_tts.py lines 59-83):
the chunk path is appended to chunk_files before the existence check; an
existing chunk file with overwrite False is skipped; otherwise the POST
is made with no try/except and no status check — an exception propagates
out of the whole loop (Except.error), and on any response the body is
written to the chunk path regardless of the HTTP status. The Nat counts
the POSTs made. -/
def chunk_loop (tts : Str → TtsOutcome) (overwrite : Bool) (base : Str) :
    List WavFile → Nat → List Str → List (Nat × Str) →
      Except Unit (List WavFile × Nat × List Str)
  | fs, calls, chunk_files, [] => Except.ok (fs, calls, chunk_files)
  | fs, calls, chunk_files, (i, chunk) :: rest =>
    let path := chunk_path base i
    let chunk_files1 := chunk_files ++ [path]
    if fsHas fs path && !overwrite then
      chunk_loop tts overwrite base fs calls chunk_files1 rest
    else
      match tts chunk with
      | Except.error e => Except.error e
      | Except.ok r =>
          chunk_loop tts overwrite base (fsWrite fs path r.rate r.samples)
            (calls + 1) chunk_files1 rest

/-- The body of the per-file loop of process_text_files (launch_tts.py
lines 38-101) for one TextUnit: skip the whole unit if the
timestamp-suffixed final output exists and overwrite is False; otherwise
chunk the text, synthesize each chunk, then merge and clean up. Returns
the new output directory and the number of TTS POSTs, or the propagated
exception. The directory glue.py reads is modelled as the output
directory (the default layout). -/
def process_unit (tts : Str → TtsOutcome) (overwrite : Bool)
    (max_chunk_length : Nat) (timestamp base text : Str)
    (fs : List WavFile) : Except Unit (List WavFile × Nat) :=
  if fsHas fs (final_path base timestamp) && !overwrite then
    Except.ok (fs, 0)
  else
    match chunk_loop tts overwrite base fs 0 []
        ((split_text_into_chunks text max_chunk_length).enumFrom 1) with
    | Except.error e => Except.error e
    | Except.ok (fs1, calls, chunk_files) =>
        Except.ok (merge_and_cleanup fs1 chunk_files, calls)

/-- process_text_files (launch_tts.py lines 25-103) over the .txt files
of the input directory, one (base_name, text) pair per file in listing
order, accumulating the POST count; an exception escaping one unit's TTS
call aborts the whole loop, since nothing catches it. -/
def process_text_files (tts : Str → TtsOutcome) (overwrite : Bool)
    (max_chunk_length : Nat) (timestamp : Str) :
    List (Str × Str) → List WavFile → Nat → Except Unit (List WavFile × Nat)
  | [], fs, calls => Except.ok (fs, calls)
  | (base, text) :: rest, fs, calls =>
    match process_unit tts overwrite max_chunk_length timestamp base text fs with
    | Except.error e => Except.error e
    | Except.ok (fs1, c) =>
        process_text_files tts overwrite max_chunk_length timestamp rest fs1
          (calls + c)

/-- One segment of process_srt_files (launch_from_srt.py lines 104-142):
existence check, then the POST wrapped in try/except together with
response.raise_for_status() — which raises for status >= 400; on a
requests exception (connection error or raised status) nothing is
written and the per-segment loop continues with the next segment. -/
def srt_segment_step (tts_result : TtsOutcome) (overwrite : Bool)
    (path : Str) (fs : List WavFile) : List WavFile :=
  if fsHas fs path && !overwrite then fs
  else
    match tts_result with
    | Except.error _ => fs
    | Except.ok r =>
        if 400 ≤ r.status then fs
        else fsWrite fs path r.rate r.samples

/-- The error body a failing TTS endpoint returns with HTTP status 500. -/
def c4resp500 : TtsResponse := ⟨500, 44100, [9]⟩

/-- A TTS endpoint whose POST always raises a connection error. -/
def ttsDown : Str → TtsOutcome := fun _ => Except.error ()

/-- C4 counterexample, both halves on launch_tts.py: (1) a POST answered
with HTTP status 500 still writes the response body to the chunk path —
a fragment file is created for the failed chunk; (2) a POST that raises
aborts the whole batch run — with two TextUnits, the exception in unit
"a" ends the run and unit "b" is never processed. -/
theorem C4_counterexample :
    chunk_loop (fun _ => Except.ok c4resp500) false ("u".toList) [] 0 []
        [(1, "Hi.".toList)] =
      Except.ok ([⟨chunk_path ("u".toList) 1, 44100, [9]⟩], 1,
        [chunk_path ("u".toList) 1]) ∧
      process_text_files ttsDown false 600 ("20250101_000000".toList)
        [("a".toList, "Hi".toList), ("b".toList, "Hi".toList)] [] 0 =
      Except.error () :=
  ⟨by rfl, by rfl⟩

/-- C4 amended: in the subtitle driver (launch_from_srt.py) a TTS call
that raises a connection error, or whose response status is at least 400
(so that raise_for_status raises), writes nothing for that segment: the
filesystem is returned unchanged and the loop proceeds to the next
segment. -/
theorem C4_amended_srt_isolation (fs : List WavFile) (path : Str)
    (t : TtsOutcome)
    (h : t = Except.error () ∨ ∃ r, t = Except.ok r ∧ 400 ≤ r.status) :
    srt_segment_step t false path fs = fs := by
  rcases h with rfl | ⟨r, rfl, hr⟩
  · unfold srt_segment_step
    split <;> rfl
  · unfold srt_segment_step
    split
    · rfl
    · dsimp only
      rw [if_pos hr]

/-- C4 amended, witness: an HTTP-500 response for the first segment of a
subtitle file leaves the (empty) output directory unchanged. -/
theorem C4_amended_srt_isolation_witness :
    srt_segment_step (Except.ok c4resp500) false
      ("01_00-00-03-700.wav".toList) [] = [] :=
  C4_amended_srt_isolation [] ("01_00-00-03-700.wav".toList)
    (Except.ok c4resp500) (Or.inr ⟨c4resp500, rfl, by decide⟩)

/-- Writing a fresh path keeps every other absent path absent. -/
theorem fsHas_fsWrite_false (fs : List WavFile) (p q : Str) (rate : Nat)
    (samples : List Int) (hq : fsHas fs q = false) (hne : q ≠ p) :
    fsHas (fsWrite fs p rate samples) q = false := by
  unfold fsHas at hq
  rw [List.any_eq_false] at hq
  unfold fsHas fsWrite
  rw [List.any_eq_false]
  intro f hf
  rcases List.mem_append.mp hf with hf | hf
  · exact hq f (List.mem_of_mem_filter hf)
  · rcases List.mem_singleton.mp hf with rfl
    simp only [beq_iff_eq]
    exact fun hc => hne hc.symm

/-- When no chunk path is present yet, every chunk of the unit triggers
one POST: the loop returns all chunk paths and one call per chunk. -/
theorem chunk_loop_all_fresh (tts : Str → TtsOutcome) (base : Str)
    (htts : ∀ c, ∃ r, tts c = Except.ok r) :
    ∀ (l : List (Nat × Str)) (fs : List WavFile) (calls : Nat)
      (chunk_files : List Str),
      (∀ p ∈ l, fsHas fs (chunk_path base p.1) = false) →
      (l.map (fun p => chunk_path base p.1)).Nodup →
      ∃ fs1, chunk_loop tts false base fs calls chunk_files l =
        Except.ok (fs1, calls + l.length,
          chunk_files ++ l.map (fun p => chunk_path base p.1))
  | [], fs, calls, chunk_files, _, _ => ⟨fs, by simp [chunk_loop]⟩
  | (i, c) :: rest, fs, calls, chunk_files, hfresh, hnodup => by
      obtain ⟨r, hr⟩ := htts c
      have hpath : fsHas fs (chunk_path base i) = false :=
        hfresh (i, c) (by simp)
      rw [show chunk_loop tts false base fs calls chunk_files
            ((i, c) :: rest) =
          chunk_loop tts false base
            (fsWrite fs (chunk_path base i) r.rate r.samples) (calls + 1)
            (chunk_files ++ [chunk_path base i]) rest from by
        simp [chunk_loop, hpath, hr]]
      rw [List.map_cons, List.nodup_cons] at hnodup
      have hfresh1 : ∀ p ∈ rest,
          fsHas (fsWrite fs (chunk_path base i) r.rate r.samples)
            (chunk_path base p.1) = false := by
        intro p hp
        refine fsHas_fsWrite_false fs _ _ r.rate r.samples
          (hfresh p (by simp [hp])) ?_
        intro he
        exact hnodup.1 (he ▸ List.mem_map_of_mem (fun q => chunk_path base q.1) hp)
      obtain ⟨fs1, h1⟩ := chunk_loop_all_fresh tts base htts rest
        (fsWrite fs (chunk_path base i) r.rate r.samples) (calls + 1)
        (chunk_files ++ [chunk_path base i]) hfresh1 hnodup.2
      refine ⟨fs1, ?_⟩
      have hn : calls + ((i, c) :: rest).length = calls + 1 + rest.length := by
        simp only [List.length_cons]
        omega
      have hl2 : chunk_files ++
            ((i, c) :: rest).map (fun p => chunk_path base p.1) =
          (chunk_files ++ [chunk_path base i]) ++
            rest.map (fun p => chunk_path base p.1) := by
        simp
      rw [hn, hl2]
      exact h1

/-- The C3 endpoint: every POST succeeds with the same valid audio. -/
def tts3 : Str → TtsOutcome := fun _ => Except.ok ⟨200, 16000, [7]⟩

/-- The output directory after the first complete C3 run: the chunk
fragment doc_1.wav was merged into output.wav and then deleted. -/
def c3fs1 : List WavFile := [⟨"output.wav".toList, 16000, [7]⟩]

/-- C3 counterexample: a first complete run over the one-TextUnit input
("doc", "Hi") with overwrite False makes one TTS POST and leaves only
output.wav; a second run with a different run-start timestamp makes one
TTS POST again — not zero — because the unit-level skip checks for a
final output named with the NEW timestamp, which does not exist, and the
chunk file doc_1.wav was deleted by the first run's cleanup. -/
theorem C3_counterexample :
    process_text_files tts3 false 600 ("20250101_000000".toList)
        [("doc".toList, "Hi".toList)] [] 0 = Except.ok (c3fs1, 1) ∧
      process_text_files tts3 false 600 ("20250102_000000".toList)
        [("doc".toList, "Hi".toList)] c3fs1 0 = Except.ok (c3fs1, 1) :=
  ⟨by rfl, by rfl⟩

/-- C3 amended: a re-run with overwrite False is not a no-op. The
unit-level skip only fires when a final output bearing the CURRENT run's
timestamp exists; when it does not, and no chunk file of the unit is
present (as after a successful first run, whose cleanup deleted them),
the run performs one TTS POST per chunk of the TextUnit. Only a chunk
file still present causes a skipped no-op for that chunk. -/
theorem C3_amended_rerun_not_skipped (tts : Str → TtsOutcome)
    (max_chunk_length : Nat) (timestamp base text : Str) (fs : List WavFile)
    (hfinal : fsHas fs (final_path base timestamp) = false)
    (hchunks : ∀ p ∈ (split_text_into_chunks text max_chunk_length).enumFrom 1,
        fsHas fs (chunk_path base p.1) = false)
    (hnodup : (((split_text_into_chunks text max_chunk_length).enumFrom 1).map
        (fun p => chunk_path base p.1)).Nodup)
    (htts : ∀ c, ∃ r, tts c = Except.ok r) :
    ∃ fs1, process_unit tts false max_chunk_length timestamp base text fs =
      Except.ok (fs1, (split_text_into_chunks text max_chunk_length).length) := by
  unfold process_unit
  rw [hfinal]
  obtain ⟨fs1, h1⟩ := chunk_loop_all_fresh tts base htts
    ((split_text_into_chunks text max_chunk_length).enumFrom 1) fs 0 []
    hchunks hnodup
  rw [show (false && !false) = false from rfl, if_neg (by simp), h1]
  exact ⟨merge_and_cleanup fs1
    ([] ++ ((split_text_into_chunks text max_chunk_length).enumFrom 1).map
      (fun p => chunk_path base p.1)),
    by rw [List.enumFrom_length]; dsimp only; rw [Nat.zero_add]⟩

/-- C3 amended, witness: with the second run's timestamp and the
post-first-run directory (only output.wav), the unit ("doc", "Hi") is
reprocessed with one POST — its chunk count. -/
theorem C3_amended_rerun_not_skipped_witness :
    ∃ fs1, process_unit tts3 false 600 ("20250102_000000".toList)
        ("doc".toList) ("Hi".toList) c3fs1 = Except.ok (fs1, 1) := by
  have h := C3_amended_rerun_not_skipped tts3 600 ("20250102_000000".toList)
    ("doc".toList) ("Hi".toList) c3fs1 (by rfl) (by decide) (by decide)
    (fun c => ⟨⟨200, 16000, [7]⟩, rfl⟩)
  exact h
